import Mathlib

/-!
Shallow embedding of the SNS Topic reconciliation core of the
provider-aws-controlapi repository: the compare and diff functions of
internal/clients/sns/topicclient.go, the pointer helpers of the shared
aws client package, and the Observe/Update/Delete methods of the Topic
controller.  Go maps are modelled as association lists (wrapped in an
Option when the map may be nil), Go pointers as Option, and the external
SNS client as a record of response functions; each controller method
additionally returns the list of API calls it issued, in order.
-/

namespace ProviderAWS

/-- Models strings.EqualFold: case-insensitive string equality, compared
character by character after lower-casing. -/
def eqFold (a b : String) : Bool := a.data.map Char.toLower == b.data.map Char.toLower

/-- Models strconv.ParseBool: accepts 1, t, T, TRUE, true, True and
0, f, F, FALSE, false, False; anything else is a parse error (none). -/
def parseBool (s : String) : Option Bool :=
  if s == "1" || s == "t" || s == "T" || s == "TRUE" || s == "true" || s == "True" then
    some true
  else if s == "0" || s == "f" || s == "F" || s == "FALSE" || s == "false" || s == "False" then
    some false
  else none

/-- Models strconv.FormatBool. -/
def formatBool (b : Bool) : String := if b then "true" else "false"

/-- Models aws.ToString: dereference a *string, yielding "" for nil. -/
def awsToString : Option String → String
  | none => ""
  | some s => s

/-- Models aws.ToBool: dereference a *bool, yielding false for nil. -/
def awsToBool : Option Bool → Bool
  | none => false
  | some b => b

-- Attribute name constants from apis/sns/v1alpha1/topic_types.go.
def TopicDeliveryPolicy : String := "DeliveryPolicy"
def TopicDisplayName : String := "DisplayName"
def TopicPolicy : String := "Policy"
def FifoTopic : String := "FifoTopic"
def TopicKMSMasterKeyID : String := "KmsMasterKeyId"
def FifoTopicContentBasedDeduplication : String := "ContentBasedDeduplication"
def TopicSubscriptionConfirmed : String := "SubscriptionsConfirmed"
def TopicSubscriptionDeleted : String := "SubscriptionsDeleted"
def TopicSubscriptionPending : String := "SubscriptionsPending"
def TopicEffectiveDeliveryPolicy : String := "EffectiveDeliveryPolicy"
def TopicArn : String := "TopicArn"

-- Error code constant from topicclient.go.
def TopicNotFound : String := "NotFound"

/-- Go map read with the comma-ok form: m[k] yields the stored value and
true when the key is present, and the zero value "" with false otherwise
(reading a nil map behaves like reading an empty one). -/
def mapGetOk (m : List (String × String)) (k : String) : String × Bool :=
  match m.lookup k with
  | some v => (v, true)
  | none => ("", false)

/-- Go map read m[k] without the ok flag. -/
def mapGet (m : List (String × String)) (k : String) : String :=
  (mapGetOk m k).1

/-- Go map write on an allocated map: replaces the entry for an existing
key, appends a new entry otherwise. -/
def mapPut (m : List (String × String)) (k v : String) : List (String × String) :=
  match m with
  | [] => [(k, v)]
  | (k1, v1) :: rest => if k1 = k then (k, v) :: rest else (k1, v1) :: mapPut rest k v

/-- Go map write on a possibly nil map: writing to a nil map is a
run-time fault (the error branch), otherwise the entry is stored. -/
def goMapAssign (m : Option (List (String × String))) (k v : String) :
    Except Unit (Option (List (String × String))) :=
  match m with
  | none => Except.error ()
  | some l => Except.ok (some (mapPut l k v))

/-- Go builtin delete(m, k): removing a key from a possibly nil map
(deleting from nil is a no-op because mapping over none yields none). -/
def goMapDelete (m : Option (List (String × String))) (k : String) :
    Option (List (String × String)) :=
  m.map fun l => l.filter fun kv => !(kv.1 == k)

/-- Models the aws sdk sns types.Tag: a pair of nullable pointers. -/
structure Tag where
  Key : Option String
  Value : Option String
deriving DecidableEq, Repr

/-- Models v1alpha1.TopicParameters.  Nullable Go pointers become
Option, and the nil-able Tags map becomes an Option-wrapped association
list. -/
structure TopicParameters where
  Region : String
  DeliveryPolicy : Option String
  DisplayName : Option String
  Policy : Option String
  FifoTopic : Option Bool
  ContentBasedDeduplication : Option Bool
  KMSMasterKeyID : Option String
  Tags : Option (List (String × String))
deriving DecidableEq, Repr

/-- Models v1alpha1.TopicObservation. -/
structure TopicObservation where
  TopicArn : Option String
  SubscriptionsConfirmed : Option Int
  SubscriptionsDeleted : Option Int
  SubscriptionsPending : Option Int
  EffectiveDeliveryPolicy : Option String
deriving DecidableEq, Repr

/-- Models awsclient.StrToBoolPtr: a nil pointer on parse failure,
otherwise a pointer to the parsed boolean. -/
def StrToBoolPtr (s : String) : Option Bool := parseBool s

/-- Models awsclient.StrToIntPtr (strconv.Atoi based): a nil pointer on
parse failure, otherwise a pointer to the parsed integer. -/
def StrToIntPtr (s : String) : Option Int := s.toInt?

/-- Models awsclient.LateInitializeStringPtr: keep the first pointer
when it is non-nil, otherwise fall back to the second. -/
def LateInitializeStringPtr (a b : Option String) : Option String :=
  match a with
  | some _ => a
  | none => b

/-- Models awsclient.LateInitializeBoolPtr: keep the first pointer when
it is non-nil, otherwise fall back to the second. -/
def LateInitializeBoolPtr (a b : Option Bool) : Option Bool :=
  match a with
  | some _ => a
  | none => b

/-- The tag map built by the LateInitialize tag loop: one Go map write
per observed tag, in sequence. -/
def buildTagMap (tags : List Tag) : List (String × String) :=
  tags.foldl (fun m v => mapPut m (awsToString v.Key) (awsToString v.Value)) []

/-- Models sns.LateInitialize from topicclient.go.  The Go function
mutates the parameters in place; the embedding returns the updated
record.  Each branch reads only the field it fills, so the sequential
Go assignments become independent field updates:
the Tags map is filled from the observed tags only when it is nil and
the observed list is non-empty; the three string fields fall back to a
pointer freshly allocated by aws.String (never nil, even for an empty
observed value); the two flag fields fall back to StrToBoolPtr (nil
unless the observed value parses); KMSMasterKeyID alone is guarded by a
non-empty check on the observed value. -/
def LateInitialize (p : TopicParameters) (attributes : List (String × String))
    (tags : List Tag) : TopicParameters :=
  { Region := p.Region
    DeliveryPolicy :=
      LateInitializeStringPtr p.DeliveryPolicy (some (mapGet attributes TopicDeliveryPolicy))
    DisplayName :=
      LateInitializeStringPtr p.DisplayName (some (mapGet attributes TopicDisplayName))
    Policy :=
      LateInitializeStringPtr p.Policy (some (mapGet attributes TopicPolicy))
    FifoTopic :=
      LateInitializeBoolPtr p.FifoTopic (StrToBoolPtr (mapGet attributes FifoTopic))
    ContentBasedDeduplication :=
      LateInitializeBoolPtr p.ContentBasedDeduplication
        (StrToBoolPtr (mapGet attributes FifoTopicContentBasedDeduplication))
    KMSMasterKeyID :=
      if p.KMSMasterKeyID = none ∧ mapGet attributes TopicKMSMasterKeyID ≠ "" then
        some (mapGet attributes TopicKMSMasterKeyID)
      else p.KMSMasterKeyID
    Tags :=
      if p.Tags = none ∧ tags ≠ [] then some (buildTagMap tags) else p.Tags }

/-- Models sns.GenerateObservation from topicclient.go. -/
def GenerateObservation (attributes : List (String × String)) : TopicObservation :=
  { TopicArn := some (mapGet attributes TopicArn)
    SubscriptionsConfirmed := StrToIntPtr (mapGet attributes TopicSubscriptionConfirmed)
    SubscriptionsPending := StrToIntPtr (mapGet attributes TopicSubscriptionPending)
    SubscriptionsDeleted := StrToIntPtr (mapGet attributes TopicSubscriptionDeleted)
    EffectiveDeliveryPolicy := some (mapGet attributes TopicEffectiveDeliveryPolicy) }

/-- Number of entries of the possibly nil desired tag map (len of a nil
Go map is 0). -/
def tagsLen (t : Option (List (String × String))) : Nat := (t.getD []).length

/-- Models sns.IsUpToDate from topicclient.go.  The Go function is a
chain of early-return checks, embedded here as the equivalent
conjunction, one conjunct per check in source order: tag count, the
per-observed-tag loop, the four case-insensitive string comparisons,
then the two parsed-boolean comparisons whose parse failure returns
false. -/
def IsUpToDate (p : TopicParameters) (attributes : List (String × String))
    (tags : List Tag) : Bool :=
  (tagsLen p.Tags == tags.length) &&
  (tags.all fun v =>
    let tok := mapGetOk (p.Tags.getD []) (awsToString v.Key)
    tok.2 && eqFold tok.1 (awsToString v.Value)) &&
  eqFold (awsToString p.Policy) (mapGet attributes TopicPolicy) &&
  eqFold (awsToString p.DisplayName) (mapGet attributes TopicDisplayName) &&
  eqFold (awsToString p.DeliveryPolicy) (mapGet attributes TopicDeliveryPolicy) &&
  eqFold (awsToString p.KMSMasterKeyID) (mapGet attributes TopicKMSMasterKeyID) &&
  (match parseBool (mapGet attributes FifoTopic) with
   | none => false
   | some b => awsToBool p.FifoTopic == b) &&
  (match parseBool (mapGet attributes FifoTopicContentBasedDeduplication) with
   | none => false
   | some b => awsToBool p.ContentBasedDeduplication == b)

/-- Models sns.GetAttributeDiff from topicclient.go.  The Go function
inserts into a fresh map under six distinct constant keys in source
order; the embedding concatenates the corresponding optional singleton
entries in that order, and the final len==0 check maps the empty result
to the nil map (none). -/
def GetAttributeDiff (p : TopicParameters) (attributes : List (String × String)) :
    Option (List (String × String)) :=
  let out :=
    (if !(eqFold (awsToString p.Policy) (mapGet attributes TopicPolicy)) then
      [(TopicPolicy, awsToString p.Policy)] else []) ++
    (if awsToBool p.FifoTopic != awsToBool (StrToBoolPtr (mapGet attributes FifoTopic)) then
      [(FifoTopic, formatBool (awsToBool p.FifoTopic))] else []) ++
    (if !(eqFold (awsToString p.DisplayName) (mapGet attributes TopicDisplayName)) then
      [(TopicDisplayName, awsToString p.DisplayName)] else []) ++
    (if !(eqFold (awsToString p.KMSMasterKeyID) (mapGet attributes TopicKMSMasterKeyID)) then
      [(TopicKMSMasterKeyID, awsToString p.KMSMasterKeyID)] else []) ++
    (if !(eqFold (awsToString p.DeliveryPolicy) (mapGet attributes TopicDeliveryPolicy)) then
      [(TopicDeliveryPolicy, awsToString p.DeliveryPolicy)] else []) ++
    (if awsToBool p.ContentBasedDeduplication !=
        awsToBool (StrToBoolPtr (mapGet attributes FifoTopicContentBasedDeduplication)) then
      [(FifoTopicContentBasedDeduplication,
        formatBool (awsToBool p.ContentBasedDeduplication))] else [])
  if out = [] then none else some out

/-- The deep-copy loop at the start of sns.GetDiffTags: one Go map write
per desired tag entry into the destination map.  The destination starts
as a declared-but-never-allocated (nil) map, so the first write faults
whenever the source has an entry. -/
def copyLoop (src : List (String × String)) (dst : Option (List (String × String))) :
    Except Unit (Option (List (String × String))) :=
  match src with
  | [] => Except.ok dst
  | (k, v) :: rest =>
    match goMapAssign dst k v with
    | .error _ => Except.error ()
    | .ok dst1 => copyLoop rest dst1

/-- Loop body of sns.GetDiffTags over the observed tags: look the
observed key up in the desired tags (comma-ok), append to removeTags
when the key is missing, append to both sets when the looked-up value
(the zero value "" when missing, since the two ifs are not chained)
differs under strings.Compare, then delete the observed key from the
working copy of the desired tags. -/
def diffTagsStep (p : TopicParameters)
    (acc : (List Tag × List Tag) × Option (List (String × String))) (v : Tag) :
    (List Tag × List Tag) × Option (List (String × String)) :=
  let tok := mapGetOk (p.Tags.getD []) (awsToString v.Key)
  let removeTags := if tok.2 then acc.1.2 else acc.1.2 ++ [v]
  let next :=
    if tok.1 != awsToString v.Value then
      (acc.1.1 ++ [Tag.mk v.Key (some tok.1)], removeTags ++ [v])
    else (acc.1.1, removeTags)
  (next, goMapDelete acc.2 (awsToString v.Key))

/-- Models sns.GetDiffTags from topicclient.go.  The working copy
managedResourceTags is declared without allocation (a nil map), so the
deep-copy loop faults on its first write whenever the desired tag map
has an entry; otherwise the observed tags are folded through
diffTagsStep and every key left in the working copy is appended as a
net-new addition.  The final len==0 normalisation to a nil slice is the
identity here because [] already models the nil slice. -/
def GetDiffTags (p : TopicParameters) (tags : List Tag) :
    Except Unit (List Tag × List Tag) :=
  match copyLoop (p.Tags.getD []) none with
  | .error _ => Except.error ()
  | .ok managedResourceTags =>
    let r := tags.foldl (diffTagsStep p) (([], []), managedResourceTags)
    let addTags := r.1.1 ++ (r.2.getD []).map fun kv => Tag.mk (some kv.1) (some kv.2)
    Except.ok (addTags, r.1.2)

-- Error message constants from internal/controller/sns/topic/controller.go.
def errKubeUpdateFailed : String := "cannot update Topic custom resource"
def errCreateFailed : String := "cannot create Topic"
def errDeleteFailed : String := "cannot delete Topic"
def errGetTopicAttributesFailed : String := "cannot get Topic attributes"
def errListTopicTagsFailed : String := "cannot list Topic tags"

/-- Errors returned by the external AWS client: either a smithy APIError
carrying an error code, or any other (transport style) error. -/
inductive AWSError where
  | api (code : String)
  | other (msg : String)
deriving DecidableEq, Repr

/-- Models sns.IsNotFound from topicclient.go: the error is a smithy
APIError whose code is the TopicNotFound constant. -/
def IsNotFound : AWSError → Bool
  | AWSError.api code => code == TopicNotFound
  | AWSError.other _ => false

/-- Go errors as seen by the controller methods: a plain error message
or a wrapped cause. -/
inductive GoErr where
  | simple (msg : String)
  | wrapped (msg : String) (cause : AWSError)
deriving DecidableEq, Repr

/-- Models resource.Ignore applied to a non-nil error: the error is
dropped (becomes nil) exactly when the predicate holds. -/
def Ignore (f : AWSError → Bool) (e : AWSError) : Option AWSError :=
  if f e then none else some e

/-- Models awsclient.Wrap on a possibly nil error: nil stays nil,
anything else is wrapped with the message. -/
def Wrap (e : Option AWSError) (msg : String) : Option GoErr :=
  match e with
  | none => none
  | some e => some (GoErr.wrapped msg e)

/-- The managed Topic resource as the controller sees it: the object
name, the crossplane external-name annotation (none when the annotation
was never set), the desired spec and the observed status. -/
structure Topic where
  name : String
  externalName : Option String
  forProvider : TopicParameters
  atProvider : TopicObservation
  readyCondition : Option String
deriving DecidableEq, Repr

/-- Models crossplane meta.GetExternalName: the external-name
annotation value, which is the empty string when the annotation is
absent (a Go map read of a missing key). -/
def GetExternalName (cr : Topic) : String := awsToString cr.externalName

/-- Models sns.GetConnectionDetails: nil when the observed TopicArn is
nil, otherwise the secret endpoint value (the ARN). -/
def GetConnectionDetails (cr : Topic) : Option String :=
  match cr.atProvider.TopicArn with
  | none => none
  | some a => some a

/-- Models managed.ExternalObservation (the fields this controller
sets). -/
structure ExternalObservation where
  ResourceExists : Bool
  ResourceUpToDate : Bool
  ConnectionDetails : Option String
deriving DecidableEq, Repr

/-- Models managed.ExternalUpdate (the field this controller sets). -/
structure ExternalUpdate where
  ConnectionDetails : Option String
deriving DecidableEq, Repr

/-- One call to an external collaborator, with its arguments. -/
inductive APICall where
  | getTopicAttributes (arn : String)
  | listTagsForResource (arn : String)
  | setTopicAttributes (arn name value : String)
  | untagResource (arn : String) (tagKeys : List Tag)
  | tagResource (arn : String) (tags : List Tag)
  | deleteTopic (arn : String)
  | kubeUpdate
deriving DecidableEq, Repr

/-- The responses the external collaborators give to each call: the
behaviour of the sns.Client interface plus the kube client update. -/
structure ClientResponses where
  getTopicAttributes : String → Except AWSError (List (String × String))
  listTagsForResource : String → Except AWSError (List Tag)
  setTopicAttributes : String → String → String → Except AWSError Unit
  tagResource : String → List Tag → Except AWSError Unit
  untagResource : String → List Tag → Except AWSError Unit
  deleteTopic : String → Except AWSError Unit
  kubeUpdate : Except AWSError Unit

/-- Models external.Observe from controller.go.  When the external name
annotation equals the object name under strings.EqualFold the method
short-circuits to a does-not-exist observation without any call;
otherwise it reads attributes (a NotFound read is swallowed into an
empty observation by resource.Ignore), reads tags, late-initialises the
spec, persists it through the kube client when it changed, then builds
the observation.  The second component is the list of calls issued. -/
def Observe (c : ClientResponses) (cr : Topic) :
    Except GoErr (ExternalObservation × Topic) × List APICall :=
  if eqFold (GetExternalName cr) cr.name then
    (Except.ok
      ({ ResourceExists := false, ResourceUpToDate := false, ConnectionDetails := none }, cr),
     [])
  else
    match c.getTopicAttributes (GetExternalName cr) with
    | .error e =>
      (match Wrap (Ignore IsNotFound e) errGetTopicAttributesFailed with
       | none =>
         Except.ok
           ({ ResourceExists := false, ResourceUpToDate := false, ConnectionDetails := none },
            cr)
       | some g => Except.error g,
       [APICall.getTopicAttributes (GetExternalName cr)])
    | .ok attrs =>
      match c.listTagsForResource (GetExternalName cr) with
      | .error e =>
        (Except.error (GoErr.wrapped errListTopicTagsFailed e),
         [APICall.getTopicAttributes (GetExternalName cr),
          APICall.listTagsForResource (GetExternalName cr)])
      | .ok tl =>
        let current := cr.forProvider
        let cr1 : Topic := { cr with forProvider := LateInitialize cr.forProvider attrs tl }
        let base := [APICall.getTopicAttributes (GetExternalName cr),
                     APICall.listTagsForResource (GetExternalName cr)]
        let finish : List APICall → Except GoErr (ExternalObservation × Topic) × List APICall :=
          fun tr =>
            let cr2 : Topic :=
              { cr1 with readyCondition := some "Available",
                         atProvider := GenerateObservation attrs }
            (Except.ok
              ({ ResourceExists := true,
                 ResourceUpToDate := IsUpToDate cr2.forProvider attrs tl,
                 ConnectionDetails := GetConnectionDetails cr2 }, cr2), tr)
        if current = cr1.forProvider then finish base
        else
          match c.kubeUpdate with
          | .error e => (Except.error (GoErr.wrapped errKubeUpdateFailed e),
                         base ++ [APICall.kubeUpdate])
          | .ok _ => finish (base ++ [APICall.kubeUpdate])

/-- The attribute loop of external.Update: one SetTopicAttributes call
per diff entry, stopping at the first failing call with a wrapped
error. -/
def applyAttributeDiff (c : ClientResponses) (arn : String) :
    List (String × String) → Except GoErr Unit × List APICall
  | [] => (Except.ok (), [])
  | (k, v) :: rest =>
    match c.setTopicAttributes arn k v with
    | .error e =>
      (Except.error (GoErr.wrapped errKubeUpdateFailed e), [APICall.setTopicAttributes arn k v])
    | .ok _ =>
      let r := applyAttributeDiff c arn rest
      (r.1, APICall.setTopicAttributes arn k v :: r.2)

/-- Outcome of external.Update: a returned update, a returned error, or
the run-time fault raised inside GetDiffTags. -/
inductive UpdateOutcome where
  | ok (u : ExternalUpdate)
  | err (e : GoErr)
  | panicked
deriving DecidableEq, Repr

/-- The add half of the tag block of external.Update: TagResource is
called only when addTags is non-nil ([] models the nil slice). -/
def applyAddTags (c : ClientResponses) (arn : String) (addTags : List Tag) :
    UpdateOutcome × List APICall :=
  if addTags = [] then (UpdateOutcome.ok { ConnectionDetails := some arn }, [])
  else
    match c.tagResource arn addTags with
    | .error e =>
      (UpdateOutcome.err (GoErr.wrapped errKubeUpdateFailed e), [APICall.tagResource arn addTags])
    | .ok _ => (UpdateOutcome.ok { ConnectionDetails := some arn }, [APICall.tagResource arn addTags])

/-- The tag block of external.Update: UntagResource first (only when
removeTags is non-nil; the source passes the removed tag slice as the
TagKeys argument), then TagResource (only when addTags is non-nil). -/
def applyTagDiff (c : ClientResponses) (arn : String) (addTags removeTags : List Tag) :
    UpdateOutcome × List APICall :=
  if removeTags = [] then applyAddTags c arn addTags
  else
    match c.untagResource arn removeTags with
    | .error e =>
      (UpdateOutcome.err (GoErr.wrapped errKubeUpdateFailed e),
       [APICall.untagResource arn removeTags])
    | .ok _ =>
      let r := applyAddTags c arn addTags
      (r.1, APICall.untagResource arn removeTags :: r.2)

/-- Models external.Update from controller.go: read attributes (a
NotFound read is swallowed by resource.Ignore into an empty successful
update), apply each attribute diff entry as its own call, read tags,
compute the tag diff (whose nil-map fault aborts the pass), then remove
and add tags.  The second component is the list of calls issued. -/
def Update (c : ClientResponses) (cr : Topic) : UpdateOutcome × List APICall :=
  match c.getTopicAttributes (GetExternalName cr) with
  | .error e =>
    (match Wrap (Ignore IsNotFound e) errGetTopicAttributesFailed with
     | none => UpdateOutcome.ok { ConnectionDetails := none }
     | some g => UpdateOutcome.err g,
     [APICall.getTopicAttributes (GetExternalName cr)])
  | .ok attrs =>
    match applyAttributeDiff c (GetExternalName cr)
        ((GetAttributeDiff cr.forProvider attrs).getD []) with
    | (.error g, tr) => (UpdateOutcome.err g, APICall.getTopicAttributes (GetExternalName cr) :: tr)
    | (.ok _, tr) =>
      match c.listTagsForResource (GetExternalName cr) with
      | .error e =>
        (UpdateOutcome.err (GoErr.wrapped errListTopicTagsFailed e),
         (APICall.getTopicAttributes (GetExternalName cr) :: tr) ++
           [APICall.listTagsForResource (GetExternalName cr)])
      | .ok tl =>
        match GetDiffTags cr.forProvider tl with
        | .error _ =>
          (UpdateOutcome.panicked,
           (APICall.getTopicAttributes (GetExternalName cr) :: tr) ++
             [APICall.listTagsForResource (GetExternalName cr)])
        | .ok (addTags, removeTags) =>
          let rt := applyTagDiff c (GetExternalName cr) addTags removeTags
          (rt.1,
           ((APICall.getTopicAttributes (GetExternalName cr) :: tr) ++
             [APICall.listTagsForResource (GetExternalName cr)]) ++ rt.2)

/-- Models external.Delete from controller.go: one DeleteTopic call; a
NotFound failure is dropped by resource.Ignore so the method returns
nil, any other failure is wrapped.  (The Deleting status condition the
source sets is not part of the returned value.) -/
def Delete (c : ClientResponses) (cr : Topic) : Option GoErr × List APICall :=
  match c.deleteTopic (GetExternalName cr) with
  | .ok _ => (none, [APICall.deleteTopic (GetExternalName cr)])
  | .error e =>
    (Wrap (Ignore IsNotFound e) errDeleteFailed, [APICall.deleteTopic (GetExternalName cr)])

/-- A desired state with every optional field unset. -/
def defParams : TopicParameters :=
  { Region := "us-east-1", DeliveryPolicy := none, DisplayName := none, Policy := none,
    FifoTopic := none, ContentBasedDeduplication := none, KMSMasterKeyID := none,
    Tags := none }

/-- An observation with every field unset. -/
def defObs : TopicObservation :=
  { TopicArn := none, SubscriptionsConfirmed := none, SubscriptionsDeleted := none,
    SubscriptionsPending := none, EffectiveDeliveryPolicy := none }

/-- A client whose read and delete calls answer with the NotFound error
code and whose mutating calls succeed. -/
def stubClient : ClientResponses :=
  { getTopicAttributes := fun _ => Except.error (AWSError.api "NotFound")
    listTagsForResource := fun _ => Except.ok []
    setTopicAttributes := fun _ _ _ => Except.ok ()
    tagResource := fun _ _ => Except.ok ()
    untagResource := fun _ _ => Except.ok ()
    deleteTopic := fun _ => Except.error (AWSError.api "NotFound")
    kubeUpdate := Except.ok () }

-- Helper lemmas -------------------------------------------------------

lemma awsToBool_some (b : Bool) : awsToBool (some b) = b := rfl

lemma awsToBool_none : awsToBool none = false := rfl

lemma awsToString_some (s : String) : awsToString (some s) = s := rfl

lemma awsToString_none : awsToString none = "" := rfl

/-- Folding the GetDiffTags loop body over the observed tags when the
desired tag map has no entries: every observed tag is appended to
removeTags once, and a second time together with an add entry carrying
the zero value "" whenever its observed value is non-empty; the working
copy stays nil throughout. -/
lemma foldl_diffTagsStep_nilTags (p : TopicParameters) (hp : p.Tags.getD [] = []) :
    ∀ (tags : List Tag) (a r : List Tag),
      tags.foldl (diffTagsStep p) ((a, r), none) =
        ((a ++ (tags.filter fun v => awsToString v.Value != "").map
            fun v => Tag.mk v.Key (some ""),
          r ++ tags.flatMap fun v => if awsToString v.Value = "" then [v] else [v, v]), none)
  | [], a, r => by simp
  | v :: vs, a, r => by
    have hstep : diffTagsStep p ((a, r), none) v =
        (if awsToString v.Value = "" then ((a, r ++ [v]), none)
         else ((a ++ [Tag.mk v.Key (some "")], (r ++ [v]) ++ [v]), none)) := by
      by_cases hv : awsToString v.Value = ""
      · simp [diffTagsStep, hp, mapGetOk, goMapDelete, hv, bne]
      · simp [diffTagsStep, hp, mapGetOk, goMapDelete, hv, bne, beq_iff_eq, Ne.symm hv]
    by_cases hv : awsToString v.Value = ""
    · rw [List.foldl_cons, hstep, if_pos hv,
        foldl_diffTagsStep_nilTags p hp vs a (r ++ [v])]
      simp [hv]
    · rw [List.foldl_cons, hstep, if_neg hv,
        foldl_diffTagsStep_nilTags p hp vs (a ++ [Tag.mk v.Key (some "")]) ((r ++ [v]) ++ [v])]
      simp [hv]

/-- Closed form of GetDiffTags: a fault whenever the desired tag map has
an entry, otherwise the classification of the observed tags against an
empty desired set. -/
lemma getDiffTags_run (p : TopicParameters) (tags : List Tag) :
    GetDiffTags p tags =
      if p.Tags.getD [] = [] then
        Except.ok
          ((tags.filter fun v => awsToString v.Value != "").map
             fun v => Tag.mk v.Key (some ""),
           tags.flatMap fun v => if awsToString v.Value = "" then [v] else [v, v])
      else Except.error () := by
  by_cases hp : p.Tags.getD [] = []
  · rw [if_pos hp]
    unfold GetDiffTags
    rw [hp]
    simp [copyLoop, foldl_diffTagsStep_nilTags p hp tags [] []]
  · rw [if_neg hp]
    unfold GetDiffTags
    cases hl : p.Tags.getD [] with
    | nil => exact absurd hl hp
    | cons x rest =>
      obtain ⟨k, v⟩ := x
      simp [copyLoop, goMapAssign]

-- Claim C2 ------------------------------------------------------------

/-- C2: GetDiffTags assigns into a map that was never allocated, so for
every desired state whose tag set is non-empty the deep-copy loop
writes to a nil map and the function faults instead of returning a
result: the error branch of the write is taken. -/
theorem C2_getDiffTags_nil_map_fault (p : TopicParameters) (tags : List Tag)
    (h : p.Tags.getD [] ≠ []) : GetDiffTags p tags = Except.error () := by
  rw [getDiffTags_run, if_neg h]

/-- A desired state with one tag entry. -/
def p2w : TopicParameters := { defParams with Tags := some [("env", "prod")] }

/-- Witness for C2 at a concrete one-entry desired tag set. -/
theorem C2_witness :
    p2w.Tags.getD [] ≠ [] ∧ GetDiffTags p2w [] = Except.error () :=
  ⟨by decide, C2_getDiffTags_nil_map_fault p2w [] (by decide)⟩

-- Claim C3 ------------------------------------------------------------

/-- An observed tag used as the C3 counterexample. -/
def c3tag : Tag := Tag.mk (some "k") (some "v")

/-- C3 counterexample: for a desired tag set with no entries and one
observed tag (k, v) with v non-empty, the claim predicts toRemove =
[(k, v)] and toAdd empty; the code instead appends (k, v) to toRemove
twice (the two ifs in the loop are not chained) and puts (k, "") into
toAdd, because the zero value "" of the failed lookup differs from
"v". -/
theorem C3_counterexample :
    GetDiffTags defParams [c3tag] =
      Except.ok ([Tag.mk (some "k") (some "")], [c3tag, c3tag]) := by rfl

/-- C3 (amended): GetDiffTags faults whenever the desired tag map has an
entry; when it has none, each observed tag (k, v) goes to the remove
set once, and — when v is non-empty — a second time together with an add
entry (k, "") carrying the zero value of the failed desired lookup; the
net-new loop contributes nothing because the working copy is nil. -/
theorem C3_amended_getDiffTags_classification (p : TopicParameters) (tags : List Tag) :
    GetDiffTags p tags =
      if p.Tags.getD [] = [] then
        Except.ok
          ((tags.filter fun v => awsToString v.Value != "").map
             fun v => Tag.mk v.Key (some ""),
           tags.flatMap fun v => if awsToString v.Value = "" then [v] else [v, v])
      else Except.error () :=
  getDiffTags_run p tags

-- Claim C1 ------------------------------------------------------------

/-- C1 counterexample: with every desired field unset, an empty observed
attribute map and no observed tags, both diff functions report nothing
to do, yet IsUpToDate returns false (the absent FifoTopic attribute is
the empty string, which fails boolean parsing), so the claimed
equivalence does not hold at this input. -/
theorem C1_counterexample :
    IsUpToDate defParams [] [] = false ∧
    GetAttributeDiff defParams [] = none ∧
    GetDiffTags defParams [] = Except.ok ([], []) :=
  ⟨by rfl, by rfl, by rfl⟩

/-- C1 (amended): only the forward direction survives, weakened on the
tag side by the nil-map fault: whenever IsUpToDate returns true, the
attribute diff is nil, and GetDiffTags either faults (the desired tag
map is non-empty) or returns both sets nil; the converse fails because
a boolean parse failure makes IsUpToDate false while both diffs stay
empty. -/
theorem C1_amended_upToDate_implies_empty_diffs (p : TopicParameters)
    (attributes : List (String × String)) (tags : List Tag)
    (h : IsUpToDate p attributes tags = true) :
    GetAttributeDiff p attributes = none ∧
    (GetDiffTags p tags = Except.error () ∨ GetDiffTags p tags = Except.ok ([], [])) := by
  simp only [IsUpToDate, Bool.and_eq_true] at h
  obtain ⟨⟨⟨⟨⟨⟨⟨hlen, htags⟩, hpol⟩, hdisp⟩, hdel⟩, hkms⟩, hff⟩, hcbd⟩ := h
  have hlen' : tagsLen p.Tags = tags.length := by simpa using hlen
  obtain ⟨bf, hbf, hbf'⟩ : ∃ b, parseBool (mapGet attributes FifoTopic) = some b ∧
      awsToBool p.FifoTopic = b := by
    cases hb : parseBool (mapGet attributes FifoTopic) with
    | none => simp [hb] at hff
    | some b => simp [hb] at hff; exact ⟨b, rfl, hff⟩
  obtain ⟨bc, hbc, hbc'⟩ : ∃ b,
      parseBool (mapGet attributes FifoTopicContentBasedDeduplication) = some b ∧
      awsToBool p.ContentBasedDeduplication = b := by
    cases hb : parseBool (mapGet attributes FifoTopicContentBasedDeduplication) with
    | none => simp [hb] at hcbd
    | some b => simp [hb] at hcbd; exact ⟨b, rfl, hcbd⟩
  constructor
  · simp [GetAttributeDiff, StrToBoolPtr, awsToBool_some, hbf, hbc, hbf', hbc', hpol, hdisp,
      hdel, hkms]
  · by_cases hT : p.Tags.getD [] = []
    · right
      have hnil : tags = [] := by
        have : tags.length = 0 := by
          rw [← hlen']; simp [tagsLen, hT]
        exact List.length_eq_zero.mp this
      rw [getDiffTags_run, if_pos hT, hnil]
      rfl
    · left
      rw [getDiffTags_run, if_neg hT]

/-- Observed attributes whose two flag values parse, matching an unset
desired state. -/
def a1w : List (String × String) :=
  [(FifoTopic, "false"), (FifoTopicContentBasedDeduplication, "false")]

/-- Witness for C1 at a concrete in-sync input. -/
theorem C1_witness :
    IsUpToDate defParams a1w [] = true ∧
    (GetAttributeDiff defParams a1w = none ∧
     (GetDiffTags defParams [] = Except.error () ∨
      GetDiffTags defParams [] = Except.ok ([], []))) :=
  ⟨by rfl, C1_amended_upToDate_implies_empty_diffs defParams a1w [] (by rfl)⟩

-- Claim C4 ------------------------------------------------------------

/-- Whether a diff result (a possibly nil map of attribute entries)
contains an entry under the given key. -/
def hasAttrKey (o : Option (List (String × String))) (k : String) : Bool :=
  (o.getD []).any fun kv => kv.1 == k

/-- Observed attributes whose FifoTopic value fails boolean parsing. -/
def a4 : List (String × String) := [(FifoTopic, "not-a-bool")]

/-- A desired state with fifoTopic explicitly false. -/
def p4 : TopicParameters := { defParams with FifoTopic := some false }

/-- C4 counterexample: with observed FifoTopic "not-a-bool" and desired
fifoTopic false, IsUpToDate is indeed false, but GetAttributeDiff is
nil — it does not include FifoTopic, because StrToBoolPtr maps the
unparsable value to a nil pointer whose dereference is false, equal to
the desired false. -/
theorem C4_counterexample :
    IsUpToDate p4 a4 [] = false ∧ GetAttributeDiff p4 a4 = none :=
  ⟨by decide, by decide⟩

/-- C4 (amended): when the observed FifoTopic value fails boolean
parsing, IsUpToDate returns false (fail-closed), but GetAttributeDiff
compares the unparsable value as false, so it includes the FifoTopic
attribute exactly when the desired flag dereferences to true — not
unconditionally as the claim states. -/
theorem C4_amended_parse_failure_asymmetry (p : TopicParameters)
    (attributes : List (String × String)) (tags : List Tag)
    (h : parseBool (mapGet attributes FifoTopic) = none) :
    IsUpToDate p attributes tags = false ∧
    hasAttrKey (GetAttributeDiff p attributes) FifoTopic = awsToBool p.FifoTopic := by
  constructor
  · simp [IsUpToDate, h]
  · cases hb : awsToBool p.FifoTopic with
    | true =>
      simp [GetAttributeDiff, hasAttrKey, StrToBoolPtr, h, hb, awsToBool_none,
        List.any_append]
    | false =>
      simp only [GetAttributeDiff, hasAttrKey, StrToBoolPtr, h, hb, awsToBool_none]
      split_ifs <;>
        simp_all [TopicPolicy, FifoTopic, TopicDisplayName, TopicKMSMasterKeyID,
          TopicDeliveryPolicy, FifoTopicContentBasedDeduplication, List.any_append]

/-- A desired state with fifoTopic explicitly true. -/
def p4w : TopicParameters := { defParams with FifoTopic := some true }

/-- Witness for C4 at a concrete unparsable observed flag. -/
theorem C4_witness :
    parseBool (mapGet a4 FifoTopic) = none ∧
    (IsUpToDate p4w a4 [] = false ∧
     hasAttrKey (GetAttributeDiff p4w a4) FifoTopic = awsToBool p4w.FifoTopic) :=
  ⟨by decide, C4_amended_parse_failure_asymmetry p4w a4 [] (by decide)⟩

-- Claim C5 ------------------------------------------------------------

/-- C5 counterexample: with every desired field unset and an empty
observed attribute map, the observed DeliveryPolicy value is the empty
string, yet LateInitialize sets the unset desired field to a pointer to
"" (aws.String never returns nil), so an unset scalar field is filled
even from an empty observed value. -/
theorem C5_counterexample :
    defParams.DeliveryPolicy = none ∧
    mapGet [] TopicDeliveryPolicy = "" ∧
    (LateInitialize defParams [] []).DeliveryPolicy = some "" :=
  ⟨rfl, rfl, by decide⟩

/-- C5 (amended): per-field behaviour of LateInitialize.  Fields already
set are never touched; an unset DeliveryPolicy, DisplayName or Policy
is always filled with the observed value, empty or not; an unset flag
field is filled only when the observed value parses as a boolean; only
KMSMasterKeyID is guarded by a non-empty observed value; the tag map is
copied from the observed tags only when it is nil and the observed list
is non-empty. -/
theorem C5_amended_lateInit_per_field (p : TopicParameters)
    (attributes : List (String × String)) (tags : List Tag) :
    (LateInitialize p attributes tags).Region = p.Region ∧
    (LateInitialize p attributes tags).DeliveryPolicy =
      (match p.DeliveryPolicy with
       | some x => some x
       | none => some (mapGet attributes TopicDeliveryPolicy)) ∧
    (LateInitialize p attributes tags).DisplayName =
      (match p.DisplayName with
       | some x => some x
       | none => some (mapGet attributes TopicDisplayName)) ∧
    (LateInitialize p attributes tags).Policy =
      (match p.Policy with
       | some x => some x
       | none => some (mapGet attributes TopicPolicy)) ∧
    (LateInitialize p attributes tags).FifoTopic =
      (match p.FifoTopic with
       | some b => some b
       | none => StrToBoolPtr (mapGet attributes FifoTopic)) ∧
    (LateInitialize p attributes tags).ContentBasedDeduplication =
      (match p.ContentBasedDeduplication with
       | some b => some b
       | none => StrToBoolPtr (mapGet attributes FifoTopicContentBasedDeduplication)) ∧
    (LateInitialize p attributes tags).KMSMasterKeyID =
      (match p.KMSMasterKeyID with
       | some x => some x
       | none =>
         if mapGet attributes TopicKMSMasterKeyID = "" then none
         else some (mapGet attributes TopicKMSMasterKeyID)) ∧
    (LateInitialize p attributes tags).Tags =
      (match p.Tags with
       | some m => some m
       | none => if tags = [] then none else some (buildTagMap tags)) := by
  refine ⟨rfl, ?_, ?_, ?_, ?_, ?_, ?_, ?_⟩
  · cases h : p.DeliveryPolicy <;> simp [LateInitialize, LateInitializeStringPtr, h]
  · cases h : p.DisplayName <;> simp [LateInitialize, LateInitializeStringPtr, h]
  · cases h : p.Policy <;> simp [LateInitialize, LateInitializeStringPtr, h]
  · cases h : p.FifoTopic <;> simp [LateInitialize, LateInitializeBoolPtr, h]
  · cases h : p.ContentBasedDeduplication <;> simp [LateInitialize, LateInitializeBoolPtr, h]
  · cases hk : p.KMSMasterKeyID with
    | none =>
      by_cases hm : mapGet attributes TopicKMSMasterKeyID = "" <;>
        simp [LateInitialize, hk, hm]
    | some x => simp [LateInitialize, hk]
  · cases hp : p.Tags with
    | none => by_cases ht : tags = [] <;> simp [LateInitialize, hp, ht]
    | some m => simp [LateInitialize, hp]

-- Claim C6 ------------------------------------------------------------

lemma LateInitializeStringPtr_idem (a b : Option String) :
    LateInitializeStringPtr (LateInitializeStringPtr a b) b = LateInitializeStringPtr a b := by
  cases a <;> cases b <;> rfl

lemma LateInitializeBoolPtr_idem (a b : Option Bool) :
    LateInitializeBoolPtr (LateInitializeBoolPtr a b) b = LateInitializeBoolPtr a b := by
  cases a <;> cases b <;> rfl

/-- C6: LateInitialize is idempotent — running the merge a second time
with the same observed attributes and tags changes nothing, because
every branch only fills fields that are still unset. -/
theorem C6_LateInitialize_idem (p : TopicParameters)
    (attributes : List (String × String)) (tags : List Tag) :
    LateInitialize (LateInitialize p attributes tags) attributes tags =
      LateInitialize p attributes tags := by
  simp only [LateInitialize, TopicParameters.mk.injEq]
  refine ⟨trivial, ?_, ?_, ?_, ?_, ?_, ?_, ?_⟩
  · exact LateInitializeStringPtr_idem _ _
  · exact LateInitializeStringPtr_idem _ _
  · exact LateInitializeStringPtr_idem _ _
  · exact LateInitializeBoolPtr_idem _ _
  · exact LateInitializeBoolPtr_idem _ _
  · by_cases hk : p.KMSMasterKeyID = none <;>
      by_cases hm : mapGet attributes TopicKMSMasterKeyID = "" <;>
      simp [hk, hm]
  · by_cases hp : p.Tags = none <;> by_cases ht : tags = [] <;> simp [hp, ht]

-- Claim C10 -----------------------------------------------------------

/-- C10: when the FifoTopic key (or the ContentBasedDeduplication key)
is absent from the observed attribute map, the looked-up value is the
empty string, which fails boolean parsing, so IsUpToDate returns false
regardless of every other attribute and tag — in particular for a
desired state whose two flags are unset. -/
theorem C10_absent_flag_never_up_to_date (p : TopicParameters)
    (attributes : List (String × String)) (tags : List Tag)
    (h1 : p.FifoTopic = none) (h2 : p.ContentBasedDeduplication = none)
    (h3 : attributes.lookup FifoTopic = none ∨
          attributes.lookup FifoTopicContentBasedDeduplication = none) :
    IsUpToDate p attributes tags = false := by
  rcases h3 with h | h
  · have hp : parseBool (mapGet attributes FifoTopic) = none := by
      simp [mapGet, mapGetOk, h, parseBool]
    simp [IsUpToDate, hp]
  · have hp : parseBool (mapGet attributes FifoTopicContentBasedDeduplication) = none := by
      simp [mapGet, mapGetOk, h, parseBool]
    simp [IsUpToDate, hp]

/-- Witness for C10 at an observed attribute map that omits both flag
keys. -/
theorem C10_witness :
    (defParams.FifoTopic = none ∧ defParams.ContentBasedDeduplication = none ∧
     List.lookup FifoTopic ([] : List (String × String)) = none) ∧
    IsUpToDate defParams [] [] = false :=
  ⟨⟨rfl, rfl, rfl⟩,
   C10_absent_flag_never_up_to_date defParams [] [] rfl rfl (Or.inl rfl)⟩

-- Claim C7 ------------------------------------------------------------

/-- A Topic whose external-name annotation was never set. -/
def cr7c : Topic :=
  { name := "my-topic", externalName := none, forProvider := defParams,
    atProvider := defObs, readyCondition := none }

/-- C7 counterexample: for a resource whose external identity is unset
(the annotation is absent, read as "") and whose name is non-empty, the
EqualFold guard does not fire, so Observe does call the external API —
a GetTopicAttributes read with an empty ARN — instead of
short-circuiting as the claim states. -/
theorem C7_counterexample :
    cr7c.externalName = none ∧
    (Observe stubClient cr7c).2 = [APICall.getTopicAttributes ""] :=
  ⟨rfl, by decide⟩

/-- C7 (amended): Observe short-circuits to a does-not-exist observation
with no external call exactly on the guard the source checks — the
recorded external identity being case-insensitively equal to the
resource's own name (which covers the unset case only when the name is
itself empty); an unset identity with a non-empty name instead leads to
an API read. -/
theorem C7_amended_observe_short_circuit (c : ClientResponses) (cr : Topic)
    (h : eqFold (GetExternalName cr) cr.name = true) :
    Observe c cr =
      (Except.ok ({ ResourceExists := false, ResourceUpToDate := false,
                    ConnectionDetails := none }, cr), []) := by
  simp [Observe, h]

/-- A Topic whose external name equals its own name up to case. -/
def cr7w : Topic :=
  { name := "demo", externalName := some "DEMO", forProvider := defParams,
    atProvider := defObs, readyCondition := none }

/-- Witness for C7 at a concrete placeholder identity. -/
theorem C7_witness :
    eqFold (GetExternalName cr7w) cr7w.name = true ∧
    Observe stubClient cr7w =
      (Except.ok ({ ResourceExists := false, ResourceUpToDate := false,
                    ConnectionDetails := none }, cr7w), []) :=
  ⟨by decide, C7_amended_observe_short_circuit stubClient cr7w (by decide)⟩

-- Claim C8 ------------------------------------------------------------

/-- C8: the Delete transition maps a NotFound failure of the external
delete call to overall success (resource.Ignore drops it, and wrapping
a nil error stays nil), and wraps every other failure with the delete
error message. -/
theorem C8_delete_notfound_is_success (c : ClientResponses) (cr : Topic) (e : AWSError)
    (h : c.deleteTopic (GetExternalName cr) = Except.error e) :
    (Delete c cr).1 =
      (if IsNotFound e then none else some (GoErr.wrapped errDeleteFailed e)) := by
  cases hf : IsNotFound e <;> simp [Delete, h, Wrap, Ignore, hf]

/-- Witness for C8 at a concrete NotFound delete failure. -/
theorem C8_witness :
    stubClient.deleteTopic (GetExternalName cr7c) = Except.error (AWSError.api "NotFound") ∧
    (Delete stubClient cr7c).1 =
      (if IsNotFound (AWSError.api "NotFound") then none
       else some (GoErr.wrapped errDeleteFailed (AWSError.api "NotFound"))) :=
  ⟨rfl, C8_delete_notfound_is_success stubClient cr7c (AWSError.api "NotFound") rfl⟩

-- Claim C9 ------------------------------------------------------------

/-- Whether a call is one of the two tag operations. -/
def isTagOp : APICall → Bool
  | APICall.untagResource _ _ => true
  | APICall.tagResource _ _ => true
  | _ => false

lemma applyAttributeDiff_no_tag_calls (c : ClientResponses) (arn : String) :
    ∀ l : List (String × String), ∀ x ∈ (applyAttributeDiff c arn l).2, isTagOp x = false
  | [] => by intro x hx; simp [applyAttributeDiff] at hx
  | (k, v) :: rest => by
    intro x hx
    cases hr : c.setTopicAttributes arn k v with
    | error e =>
      simp only [applyAttributeDiff, hr, List.mem_singleton] at hx
      subst hx; rfl
    | ok u =>
      simp only [applyAttributeDiff, hr, List.mem_cons] at hx
      rcases hx with rfl | hx
      · rfl
      · exact applyAttributeDiff_no_tag_calls c arn rest x hx

/-- Bool form of a pointwise no-tag-operation fact. -/
lemma all_not_tagOp_of_mem (l : List APICall) (h : ∀ x ∈ l, isTagOp x = false) :
    (l.all fun x => !(isTagOp x)) = true := by
  rw [List.all_eq_true]
  intro x hx
  show (!(isTagOp x)) = true
  rw [h x hx]
  rfl

/-- Prepending the attribute read keeps the trace free of tag
operations. -/
lemma mem_cons_not_tagOp (a : String) (tr : List APICall)
    (htr : ∀ x ∈ tr, isTagOp x = false) :
    ∀ x ∈ APICall.getTopicAttributes a :: tr, isTagOp x = false := by
  intro x hx
  rcases List.mem_cons.mp hx with rfl | hx
  · rfl
  · exact htr x hx

/-- Membership form of the no-tag-operation property for the prefix of
the Update trace. -/
lemma mem_pre_not_tagOp (a b : String) (tr : List APICall)
    (htr : ∀ x ∈ tr, isTagOp x = false) :
    ∀ x ∈ (APICall.getTopicAttributes a :: tr) ++ [APICall.listTagsForResource b],
      isTagOp x = false := by
  intro x hx
  rcases List.mem_append.mp hx with hx | hx
  · rcases List.mem_cons.mp hx with rfl | hx
    · rfl
    · exact htr x hx
  · rw [List.mem_singleton.mp hx]; rfl

lemma applyAttributeDiff_ok_trace (c : ClientResponses) (arn : String) :
    ∀ l : List (String × String), (applyAttributeDiff c arn l).1 = Except.ok () →
      (applyAttributeDiff c arn l).2 =
        l.map fun kv => APICall.setTopicAttributes arn kv.1 kv.2
  | [] => fun _ => rfl
  | (k, v) :: rest => by
    cases hr : c.setTopicAttributes arn k v with
    | error e => intro h; simp [applyAttributeDiff, hr] at h
    | ok u =>
      intro h
      simp only [applyAttributeDiff, hr] at h ⊢
      simp [applyAttributeDiff_ok_trace c arn rest h]

lemma applyTagDiff_shape (c : ClientResponses) (arn : String) (add remove : List Tag) :
    (applyTagDiff c arn add remove).2 = [] ∨
    (remove ≠ [] ∧ (applyTagDiff c arn add remove).2 = [APICall.untagResource arn remove]) ∨
    (remove = [] ∧ add ≠ [] ∧
      (applyTagDiff c arn add remove).2 = [APICall.tagResource arn add]) ∨
    (remove ≠ [] ∧ add ≠ [] ∧ (applyTagDiff c arn add remove).2 =
      [APICall.untagResource arn remove, APICall.tagResource arn add]) := by
  by_cases hr : remove = []
  · by_cases ha : add = []
    · exact Or.inl (by simp [applyTagDiff, applyAddTags, hr, ha])
    · refine Or.inr (Or.inr (Or.inl ⟨hr, ha, ?_⟩))
      cases ht : c.tagResource arn add <;> simp [applyTagDiff, applyAddTags, hr, ha, ht]
  · cases hu : c.untagResource arn remove with
    | error e => exact Or.inr (Or.inl ⟨hr, by simp [applyTagDiff, hr, hu]⟩)
    | ok u =>
      by_cases ha : add = []
      · exact Or.inr (Or.inl ⟨hr, by simp [applyTagDiff, applyAddTags, hr, hu, ha]⟩)
      · refine Or.inr (Or.inr (Or.inr ⟨hr, ha, ?_⟩))
        cases ht : c.tagResource arn add <;>
          simp [applyTagDiff, applyAddTags, hr, hu, ha, ht]

/-- C9: the call trace of a single Update pass splits into a prefix with
no tag operation — the attribute read, one single-attribute update call
per diff entry, and the tag read — followed by the tag operations; when
any tag operation happens, the attribute loop ran to completion (one
call per diff entry, in order, all before any tag operation), the
remove-call appears only with a non-empty remove set, the add-call only
with a non-empty add set, and a remove-call is never after an
add-call. -/
theorem C9_update_call_ordering (c : ClientResponses) (cr : Topic) :
    ∃ pre tagOps, (Update c cr).2 = pre ++ tagOps ∧
      (pre.all fun x => !(isTagOp x)) = true ∧
      (tagOps = [] ∨
        ∃ attrs tl add remove,
          c.getTopicAttributes (GetExternalName cr) = Except.ok attrs ∧
          c.listTagsForResource (GetExternalName cr) = Except.ok tl ∧
          GetDiffTags cr.forProvider tl = Except.ok (add, remove) ∧
          pre = APICall.getTopicAttributes (GetExternalName cr) ::
                (((GetAttributeDiff cr.forProvider attrs).getD []).map fun kv =>
                  APICall.setTopicAttributes (GetExternalName cr) kv.1 kv.2) ++
                [APICall.listTagsForResource (GetExternalName cr)] ∧
          ((remove ≠ [] ∧ tagOps = [APICall.untagResource (GetExternalName cr) remove]) ∨
           (remove = [] ∧ add ≠ [] ∧
            tagOps = [APICall.tagResource (GetExternalName cr) add]) ∨
           (remove ≠ [] ∧ add ≠ [] ∧
            tagOps = [APICall.untagResource (GetExternalName cr) remove,
                      APICall.tagResource (GetExternalName cr) add]))) := by
  cases h1 : c.getTopicAttributes (GetExternalName cr) with
  | error e =>
    refine ⟨[APICall.getTopicAttributes (GetExternalName cr)], [], ?_, ?_, Or.inl rfl⟩
    · simp [Update, h1]
    · simp [isTagOp]
  | ok attrs =>
    cases h2 : applyAttributeDiff c (GetExternalName cr)
        ((GetAttributeDiff cr.forProvider attrs).getD []) with
    | mk res tr =>
      have htrMem : ∀ x ∈ tr, isTagOp x = false := by
        have h := applyAttributeDiff_no_tag_calls c (GetExternalName cr)
          ((GetAttributeDiff cr.forProvider attrs).getD [])
        rw [h2] at h; exact h
      cases res with
      | error g =>
        refine ⟨APICall.getTopicAttributes (GetExternalName cr) :: tr, [], ?_, ?_, Or.inl rfl⟩
        · simp [Update, h1, h2]
        · exact all_not_tagOp_of_mem _ (mem_cons_not_tagOp _ tr htrMem)
      | ok u =>
        cases u
        have hmap : tr = ((GetAttributeDiff cr.forProvider attrs).getD []).map fun kv =>
            APICall.setTopicAttributes (GetExternalName cr) kv.1 kv.2 := by
          have := applyAttributeDiff_ok_trace c (GetExternalName cr)
            ((GetAttributeDiff cr.forProvider attrs).getD []) (by rw [h2])
          rw [h2] at this; exact this
        cases h3 : c.listTagsForResource (GetExternalName cr) with
        | error e =>
          refine ⟨(APICall.getTopicAttributes (GetExternalName cr) :: tr) ++
            [APICall.listTagsForResource (GetExternalName cr)], [], ?_, ?_, Or.inl rfl⟩
          · simp [Update, h1, h2, h3]
          · exact all_not_tagOp_of_mem _ (mem_pre_not_tagOp _ _ tr htrMem)
        | ok tl =>
          cases h4 : GetDiffTags cr.forProvider tl with
          | error u' =>
            refine ⟨(APICall.getTopicAttributes (GetExternalName cr) :: tr) ++
              [APICall.listTagsForResource (GetExternalName cr)], [], ?_, ?_, Or.inl rfl⟩
            · simp [Update, h1, h2, h3, h4]
            · exact all_not_tagOp_of_mem _ (mem_pre_not_tagOp _ _ tr htrMem)
          | ok pr =>
            obtain ⟨add, remove⟩ := pr
            have htrace : (Update c cr).2 =
                ((APICall.getTopicAttributes (GetExternalName cr) :: tr) ++
                  [APICall.listTagsForResource (GetExternalName cr)]) ++
                (applyTagDiff c (GetExternalName cr) add remove).2 := by
              simp [Update, h1, h2, h3, h4]
            have hpreAll : (((APICall.getTopicAttributes (GetExternalName cr) :: tr) ++
                [APICall.listTagsForResource (GetExternalName cr)]).all
                  fun x => !(isTagOp x)) = true :=
              all_not_tagOp_of_mem _ (mem_pre_not_tagOp _ _ tr htrMem)
            have hpreEq : (APICall.getTopicAttributes (GetExternalName cr) :: tr) ++
                [APICall.listTagsForResource (GetExternalName cr)] =
                APICall.getTopicAttributes (GetExternalName cr) ::
                (((GetAttributeDiff cr.forProvider attrs).getD []).map fun kv =>
                  APICall.setTopicAttributes (GetExternalName cr) kv.1 kv.2) ++
                [APICall.listTagsForResource (GetExternalName cr)] := by
              rw [hmap]
            rcases applyTagDiff_shape c (GetExternalName cr) add remove with
              h5 | ⟨hrne, h5⟩ | ⟨hre, hane, h5⟩ | ⟨hrne, hane, h5⟩
            · refine ⟨_, [], ?_, hpreAll, Or.inl rfl⟩
              rw [htrace, h5, List.append_nil]
            · exact ⟨_, _, by rw [htrace, h5], hpreAll,
                Or.inr ⟨attrs, tl, add, remove, rfl, rfl, h4, hpreEq, Or.inl ⟨hrne, rfl⟩⟩⟩
            · exact ⟨_, _, by rw [htrace, h5], hpreAll,
                Or.inr ⟨attrs, tl, add, remove, rfl, rfl, h4, hpreEq,
                  Or.inr (Or.inl ⟨hre, hane, rfl⟩)⟩⟩
            · exact ⟨_, _, by rw [htrace, h5], hpreAll,
                Or.inr ⟨attrs, tl, add, remove, rfl, rfl, h4, hpreEq,
                  Or.inr (Or.inr ⟨hrne, hane, rfl⟩)⟩⟩

end ProviderAWS
